import Mathlib

/-!
# node-steam-user, `components/web.js`

A shallow embedding of the web log-on handshake (`webLogOn`, `_webLogOn`,
`_webAuthenticate`, the nonce-response handler) and of the CONNECT proxy
agent (`getProxyAgent`), followed by theorems about them.

Asynchronous JavaScript is embedded by explicit state passing: every
function or event listener takes the object state and returns an `Outcome`
holding the new state, the list of effects it performed in program order
(messages sent, timers armed, events emitted) and the exception it threw,
if any.
-/

namespace SteamUser

/-! ## Data model -/

/-- One octet of a Node `Buffer`. -/
abbrev Byte := Fin 256

/-- The `steamID` property: an object of the `steamid` package. Only its
`type` field and its `toString()` rendering are read by `web.js`. -/
structure SteamID where
  type : Nat
  rendered : String
deriving DecidableEq

/-- The constant `SteamID.Type.INDIVIDUAL` of the `steamid` package. -/
def SteamIDType.INDIVIDUAL : Nat := 1

/-- The constant `SteamUser.EResult.OK`. -/
def EResult.OK : Nat := 1

/-- The message kinds `web.js` sends. -/
inductive EMsg where
  | ClientRequestWebAPIAuthenticateUserNonce
deriving DecidableEq

/-- The `options` object handed to `HTTPS.request`, with the request body. -/
structure Request where
  hostname : String
  path : String
  method : String
  headers : List (String × String)
  localAddress : Option String
  agent : Option String
  data : String
deriving DecidableEq

/-- What a `setTimeout` call of `web.js` will run when it fires. -/
inductive Timer where
  | _webLogOn
  | request (req : Request)
deriving DecidableEq

/-- Observable actions of the handshake controller. -/
inductive Effect where
  | send (emsg : EMsg)
  | setTimeout (cb : Timer) (ms : Nat)
  | emitDebug (msg : String)
  | emitDebugAuthenticateUser (responseData : String)
  | emitWebSession (sessionid : String) (cookies : List String)
deriving DecidableEq

/-- The fields of `this.client` read by `_webAuthenticate`. -/
structure Client where
  localAddress : Option String
  _localAddress : Option String
  httpProxy : Option String
  _httpProxy : Option String
deriving DecidableEq

/-- The part of the `SteamUser` object that `web.js` reads or writes.
`_webauthTimeout = none` is the property being absent (never set, or
deleted). -/
structure State where
  steamID : Option SteamID
  _webauthTimeout : Option Nat
  client : Client
deriving DecidableEq

/-- Result of running one function or listener. -/
structure Outcome where
  state : State
  effects : List Effect
  thrown : Option String
deriving DecidableEq

/-- A value produced by `VDF.parse`: a string leaf or a nested object. -/
inductive Vdf where
  | str (s : String)
  | obj (fields : List (String × Vdf))

/-- JavaScript property read `v[key]` on a parsed value; `none` is
`undefined`. A string has no own property of these names. -/
def Vdf.get : Vdf → String → Option Vdf
  | .str _, _ => none
  | .obj fields, key => fields.lookup key

/-- JavaScript string conversion as done by `'text' + v`. The result `none`
is the TypeError thrown when an object cannot be converted to a primitive:
a parsed object with an own property `toString` (a string or an object,
never callable) shadows the inherited method, and the inherited `valueOf`
returns the object itself. Any other object converts to `[object Object]`. -/
def jsToString : Option Vdf → Option String
  | none => some "undefined"
  | some (.str s) => some s
  | some (.obj fields) =>
    if (fields.lookup "toString").isSome then none else some "[object Object]"

/-- JavaScript truthiness of a string-valued property. -/
def truthyStr : Option String → Bool
  | none => false
  | some s => s != ""

/-- The expression `a || b` on string-valued properties. -/
def jsOrStr (a b : Option String) : Option String :=
  if truthyStr a then a else b

/-! ## `webLogOn` and `_webLogOn` -/

/-- Source: `SteamUser.prototype.webLogOn`. -/
def webLogOn (s : State) : Outcome :=
  match s.steamID with
  | none =>
    ⟨s, [], some "Cannot log onto steamcommunity.com without first being connected to Steam network"⟩
  | some id =>
    if id.type != SteamIDType.INDIVIDUAL then
      ⟨s, [], some "Must not be anonymous user to use webLogOn (check to see you passed in valid credentials to logOn)"⟩
    else
      ⟨s, [Effect.send EMsg.ClientRequestWebAPIAuthenticateUserNonce], none⟩

/-- Source: `SteamUser.prototype._webLogOn`. -/
def _webLogOn (s : State) : Outcome :=
  match s.steamID with
  | none => ⟨s, [], none⟩
  | some id =>
    if id.type != SteamIDType.INDIVIDUAL then ⟨s, [], none⟩ else webLogOn s

/-! ## Retry state -/

/-- Source: the inner function `fail` of `_webAuthenticate`. The test
`if (self._webauthTimeout)` is JavaScript truthiness: absent and `0` are
both false. -/
def fail (s : State) : Outcome :=
  let t : Nat :=
    match s._webauthTimeout with
    | some t => if t != 0 then min (t * 2) 50000 else 1000
    | none => 1000
  ⟨{ s with _webauthTimeout := some t }, [Effect.setTimeout Timer._webLogOn t], none⟩

/-- Runs `fail` `k` times in a row, collecting the effects in order. -/
def failTimes : Nat → State → Outcome
  | 0, s => ⟨s, [], none⟩
  | k + 1, s =>
    let o := failTimes k s
    let o' := fail o.state
    ⟨o'.state, o.effects ++ o'.effects, none⟩

/-- Source: `var reqDelay = Math.min(this._webauthTimeout || 0, 10000)`. -/
def reqDelay (s : State) : Nat :=
  min (match s._webauthTimeout with
       | some t => if t != 0 then t else 0
       | none => 0) 10000

/-! ## Nonce encryption -/

/-- A 16-byte cipher block (also the type of `Crypto.randomBytes(16)`). -/
abbrev Block := { l : List Byte // l.length = 16 }

/-- A 32-byte AES-256 key (`sessionKey.plain`). -/
abbrev Key := { l : List Byte // l.length = 32 }

/-- The result of `SteamCrypto.generateSessionKey()`. -/
structure SessionKey where
  plain : Key
  encrypted : List Byte

/-- The first 16 bytes of `l` as a block (zero-filled when `l` is shorter,
which no caller below lets happen). -/
def mkBlock (l : List Byte) : Block :=
  ⟨(l ++ List.replicate 16 0).take 16, by simp⟩

/-- Bytewise exclusive or of two blocks. -/
def blockXor (a b : Block) : Block :=
  ⟨List.zipWith (· ^^^ ·) a.val b.val, by simp [a.property, b.property]⟩

/-- Models `Crypto.createCipheriv('aes-256-ecb', key, '')` with
`setAutoPadding(false)`, fed the 16-byte `iv` and read back: one
application of the block cipher `E` (the AES-256 block primitive, a
parameter of the model). -/
def aes256ecbNoPadding (E : Key → Block → Block) (key : Key) (iv : Block) : List Byte :=
  (E key iv).val

/-- The final block of a padded cipher: the remaining `rest` (fewer than 16
bytes) followed by `16 - rest.length` bytes of that value. -/
def pkcs7Final (rest : List Byte) : Block :=
  mkBlock (rest ++ List.replicate (16 - rest.length) (Fin.ofNat (16 - rest.length)))

/-- Cipher block chaining over `n` full blocks of `data`, then the padded
final block. -/
def cbcGo (E : Key → Block → Block) (key : Key) : Nat → Block → List Byte → List Byte
  | 0, prev, rest => (E key (blockXor prev (pkcs7Final rest))).val
  | n + 1, prev, data =>
    let c := E key (blockXor prev (mkBlock (data.take 16)))
    c.val ++ cbcGo E key n c (data.drop 16)

/-- Models `Crypto.createCipheriv('aes-256-cbc', key, iv)` with the default
automatic padding, fed `data` and read back. -/
def aes256cbc (E : Key → Block → Block) (key : Key) (iv : Block) (data : List Byte) : List Byte :=
  cbcGo E key (data.length / 16) iv data

/-- Source: `Buffer.concat([aesIv.read(), cipher.read()])` in
`_webAuthenticate`. -/
def encryptedNonce (E : Key → Block → Block) (key : Key) (iv : Block) (nonce : List Byte) :
    List Byte :=
  aes256ecbNoPadding E key iv ++ aes256cbc E key iv nonce

/-- One lower-case hexadecimal digit. -/
def hexDigit (n : Nat) : Char :=
  if n < 10 then Char.ofNat (48 + n) else Char.ofNat (87 + n)

/-- Models `buffer.toString('hex')`, as a list of characters. -/
def toHex (bs : List Byte) : List Char :=
  bs.flatMap fun b => [hexDigit (b.val / 16), hexDigit (b.val % 16)]

/-- Models `str.replace(/../g, '%$&')`: every successive pair of characters gets a
percent sign in front. -/
def percentPairs : List Char → List Char
  | a :: b :: rest => '%' :: a :: b :: percentPairs rest
  | rest => rest

/-! ## `_webAuthenticate` -/

/-- Source: the `options` object of `_webAuthenticate` and the two
conditional assignments that follow it. -/
def buildRequest (s : State) (data : String) : Request :=
  { hostname := "api.steampowered.com"
    path := "/ISteamUserAuth/AuthenticateUser/v0001/"
    method := "POST"
    headers :=
      [("Content-Type", "application/x-www-form-urlencoded"),
       ("Content-Length", toString data.length),
       ("Accept", "text/html,*/*;q=0.9"),
       ("Accept-Encoding", "gzip,identity,*;q=0"),
       ("Accept-Charset", "ISO-8859-1,utf-8,*;q=0.7"),
       ("User-Agent", "Valve/Steam HTTP Client 1.0")]
    localAddress :=
      if truthyStr (jsOrStr s.client.localAddress s.client._localAddress) then
        jsOrStr s.client.localAddress s.client._localAddress
      else none
    agent :=
      if truthyStr (jsOrStr s.client.httpProxy s.client._httpProxy) then
        jsOrStr s.client.httpProxy s.client._httpProxy
      else none
    data := data }

/-- Source: `SteamUser.prototype._webAuthenticate`, up to and including the
outer `setTimeout`. The session key and the IV are the random values drawn
at the top of the function. -/
def _webAuthenticate (E : Key → Block → Block) (s : State) (sessionKey : SessionKey)
    (iv : Block) (nonce : List Byte) : Outcome :=
  let enc := encryptedNonce E sessionKey.plain iv nonce
  match s.steamID with
  | none => ⟨s, [], some "TypeError: Cannot read property 'toString' of undefined"⟩
  | some id =>
    let data := "format=vdf&steamid=" ++ id.rendered ++
      "&sessionkey=" ++ String.mk (percentPairs (toHex sessionKey.encrypted)) ++
      "&encrypted_loginkey=" ++ String.mk (percentPairs (toHex enc))
    ⟨s, [Effect.setTimeout (Timer.request (buildRequest s data)) (reqDelay s)], none⟩

/-- Source: the response callback of `HTTPS.request`, before the stream
listeners are attached. Returns the outcome and the local flag `failed`. -/
def onResponse (s : State) (statusCode : Nat) : Outcome × Bool :=
  if statusCode != 200 then
    let o := fail s
    (⟨o.state, Effect.emitDebug ("Error in AuthenticateUser: " ++ toString statusCode) :: o.effects,
      none⟩, true)
  else
    (⟨s, [], none⟩, false)

/-- Source: the `'end'` listener of the response stream. `parse` is
`VDF.parse` (`none` when it throws), `responseData` the accumulated body and
`rand` the bytes of `randomBytes(12)`. -/
def onEnd (parse : String → Option Vdf) (s : State) (failed : Bool) (responseData : String)
    (rand : List Byte) : Outcome :=
  if failed then
    ⟨s, [Effect.emitDebugAuthenticateUser responseData], none⟩
  else
    match parse responseData with
    | none => fail s
    | some response =>
      let s' : State := { s with _webauthTimeout := none }
      let sessionid := String.mk (toHex rand)
      match response.get "authenticateuser" with
      | none => ⟨s', [], some "TypeError: Cannot read property 'token' of undefined"⟩
      | some au =>
        match jsToString (au.get "token"), jsToString (au.get "tokensecure") with
        | some token, some tokensecure =>
          ⟨s', [Effect.emitWebSession sessionid
                  ["sessionid=" ++ sessionid,
                   "steamLogin=" ++ token,
                   "steamLoginSecure=" ++ tokensecure]], none⟩
        | _, _ => ⟨s', [], some "TypeError: Cannot convert object to primitive value"⟩

/-- Source: the `'error'` listener of the request. -/
def onRequestError (s : State) (message : String) : Outcome :=
  let o := fail s
  ⟨o.state, Effect.emitDebug ("Error in AuthenticateUser: " ++ message) :: o.effects, none⟩

/-- How one authentication attempt ends: a response with a status code and
a body, or an error on the request. -/
inductive Reply where
  | response (statusCode : Nat) (responseData : String)
  | error (message : String)

/-- Everything the listeners of one attempt do for a given reply: the
response callback followed by the `'end'` listener, or the `'error'`
listener. -/
def handleReply (parse : String → Option Vdf) (s : State) (rand : List Byte) : Reply → Outcome
  | .response statusCode responseData =>
    let r := onResponse s statusCode
    let o := onEnd parse r.1.state r.2 responseData rand
    ⟨o.state, r.1.effects ++ o.effects, o.thrown⟩
  | .error message => onRequestError s message

/-- Source: the handler of `ClientRequestWebAPIAuthenticateUserNonceResponse`. -/
def handleNonceResponse (E : Key → Block → Block) (s : State) (eresult : Nat)
    (nonce : List Byte) (sessionKey : SessionKey) (iv : Block) : Outcome :=
  if eresult != EResult.OK then
    ⟨s, [Effect.emitDebug ("Got response " ++ toString eresult ++
            " from ClientRequestWebAPIAuthenticateUserNonceResponse, retrying"),
         Effect.setTimeout Timer._webLogOn 500], none⟩
  else
    _webAuthenticate E s sessionKey iv nonce

/-! ## The proxy agent

`getProxyAgent(proxyUrl)` returns an agent whose `createConnection` issues a
CONNECT request and attaches three listeners to it. One connection attempt
is embedded as a state (the local variable `finished` and the life cycle of
`tlsSocket`) driven by the events the listeners receive. -/

/-- Life cycle of the local `tlsSocket`: not created, created by
`TLS.connect` and waiting for its one-shot `secureConnect` listener, or that
listener has run. -/
inductive TlsPhase where
  | idle
  | handshaking
  | done
deriving DecidableEq

/-- Local state of one `createConnection` call. -/
structure Conn where
  finished : Bool
  tls : TlsPhase
deriving DecidableEq

/-- The state right after `var finished = false; var req = HTTP.request(url)`. -/
def Conn.init : Conn := ⟨false, TlsPhase.idle⟩

/-- Events delivered to the listeners of one connection attempt. -/
inductive ProxyEvent where
  | connect (statusCode : Nat) (statusMessage : String)
  | timeout
  | error (err : String)
  | secureConnect (authorized : Bool) (authorizationError : Option String)
deriving DecidableEq

/-- Observable actions of the listeners. `callbackError` and
`callbackSocket` are the two ways of invoking the result callback. -/
inductive ProxyEffect where
  | socketEnd
  | reqSetTimeout (ms : Nat)
  | tlsConnect (servername : String)
  | callbackError (message : String)
  | callbackSocket
deriving DecidableEq

/-- Source: the `'connect'`, `'timeout'` and `'error'` listeners of the CONNECT
request and the callback given to `TLS.connect`, in `getProxyAgent`. The
`TLS.connect` callback exists only once `TLS.connect` has been called and is
registered as a one-shot listener, hence the guard on `tls`. -/
def proxyStep (host : String) (c : Conn) : ProxyEvent → Conn × List ProxyEffect
  | .connect statusCode statusMessage =>
    if c.finished then
      (c, [ProxyEffect.socketEnd])
    else if statusCode != 200 then
      ({ c with finished := true },
        [ProxyEffect.reqSetTimeout 0,
         ProxyEffect.callbackError
           ("HTTP CONNECT " ++ toString statusCode ++ " " ++ statusMessage)])
    else
      ({ finished := true, tls := TlsPhase.handshaking },
        [ProxyEffect.reqSetTimeout 0, ProxyEffect.tlsConnect host])
  | .timeout =>
    if c.finished then (c, [])
    else ({ c with finished := true }, [ProxyEffect.callbackError "Proxy connection timed out"])
  | .error err =>
    if c.finished then (c, [])
    else ({ c with finished := true }, [ProxyEffect.callbackError err])
  | .secureConnect authorized authorizationError =>
    match c.tls with
    | TlsPhase.handshaking =>
      if !authorized then
        ({ c with tls := TlsPhase.done },
          [ProxyEffect.callbackError
            (match jsOrStr authorizationError (some "Secure connection failed") with
             | some m => m
             | none => "Secure connection failed")])
      else
        ({ c with tls := TlsPhase.done }, [ProxyEffect.callbackSocket])
    | _ => (c, [])

/-- Delivers a sequence of events in order, collecting the effects. -/
def proxyRun (host : String) : Conn → List ProxyEvent → Conn × List ProxyEffect
  | c, [] => (c, [])
  | c, e :: es =>
    let r := proxyStep host c e
    let r' := proxyRun host r.1 es
    (r'.1, r.2 ++ r'.2)

/-- Whether an effect is an invocation of the result callback. -/
def ProxyEffect.isCallback : ProxyEffect → Bool
  | .callbackError _ => true
  | .callbackSocket => true
  | _ => false

/-- Whether an effect starts a TLS handshake. -/
def ProxyEffect.isTlsConnect : ProxyEffect → Bool
  | .tlsConnect _ => true
  | _ => false

/-- Number of times the result callback was invoked. -/
def callbackCount (effs : List ProxyEffect) : Nat :=
  effs.countP ProxyEffect.isCallback

/-- Number of TLS handshakes started. -/
def tlsCount (effs : List ProxyEffect) : Nat :=
  effs.countP ProxyEffect.isTlsConnect

/-- How many more times the result callback can still be invoked from a
state: once while `finished` is false, once while the TLS listener waits. -/
def callbackBudget (c : Conn) : Nat :=
  (if c.finished then 0 else 1) + (if c.tls = TlsPhase.handshaking then 1 else 0)

/-! ## The receiving side of the nonce encryption

Not part of `web.js`: these definitions follow the specification's
description of how the server recovers the nonce (unwrap the first block
with the plain key to get the IV, then decrypt the rest under that IV and
strip the padding). `D` is the inverse block primitive. -/

/-- Specification side: the IV recovered from the first 16 bytes of
`encryptedNonce` (ECB, no padding). -/
def specUnwrapIv (D : Key → Block → Block) (key : Key) (enc : List Byte) : Block :=
  D key (mkBlock (enc.take 16))

/-- Specification side: chained decryption of `n` cipher blocks. -/
def cbcDecGo (D : Key → Block → Block) (key : Key) : Nat → Block → List Byte → List Byte
  | 0, _, _ => []
  | n + 1, prev, ct =>
    let c := mkBlock (ct.take 16)
    (blockXor (D key c) prev).val ++ cbcDecGo D key n c (ct.drop 16)

/-- Specification side: padding removal. The last byte `p` must be between 1
and 16 and the last `p` bytes must all equal `p`. -/
def pkcs7Unpad (pt : List Byte) : Option (List Byte) :=
  match pt.getLast? with
  | none => none
  | some p =>
    if 1 ≤ p.val ∧ p.val ≤ 16 ∧ p.val ≤ pt.length ∧
        pt.drop (pt.length - p.val) = List.replicate p.val p then
      some (pt.take (pt.length - p.val))
    else none

/-- Specification side: AES-256-CBC decryption with padding removal; fails on
an empty or ragged ciphertext and on bad padding. -/
def specDecryptNonce (D : Key → Block → Block) (key : Key) (iv : Block) (ct : List Byte) :
    Option (List Byte) :=
  if ct.length % 16 ≠ 0 ∨ ct.length = 0 then none
  else pkcs7Unpad (cbcDecGo D key (ct.length / 16) iv ct)

/-- Specification side: `ceil_to_block`, the length rounded up to a multiple
of the 16-byte block size. -/
def ceilToBlock (n : Nat) : Nat :=
  (n + 15) / 16 * 16

/-- A stand-in block cipher for instantiating theorems: exclusive or with the
first half of the key. It is its own inverse. -/
def xorCipher (key : Key) (b : Block) : Block :=
  blockXor b (mkBlock key.val)

/-- A sample 32-byte key. -/
def sampleKey : Key := ⟨List.replicate 32 7, rfl⟩

/-- A sample 16-byte IV. -/
def sampleIv : Block := ⟨List.replicate 16 9, rfl⟩

/-- A sample session key. -/
def sampleSessionKey : SessionKey := ⟨sampleKey, [1, 2, 3]⟩

/-! ## Sample values used to instantiate the theorems -/

/-- A logged-on individual account with no retry state and no proxy. -/
def sampleState : State :=
  ⟨some ⟨1, "76561197960265729"⟩, none, ⟨none, none, none, none⟩⟩

/-- A client that is not logged on. -/
def loggedOffState : State :=
  ⟨none, some 4000, ⟨none, none, none, none⟩⟩

/-- A parser that returns a well-formed `authenticateuser` document. -/
def sampleParse (_ : String) : Option Vdf :=
  some (Vdf.obj [("authenticateuser",
    Vdf.obj [("token", Vdf.str "AAAA"), ("tokensecure", Vdf.str "BBBB")])])

/-- A parser that returns the empty document, as `VDF.parse` does on an
empty body. -/
def emptyParse (_ : String) : Option Vdf :=
  some (Vdf.obj [])

/-! ## Theorems: the handshake controller -/

/-- From an absent retry state, `k + 1` calls of `fail` leave the delay
`min (1000 * 2 ^ k) 50000` and have armed one `_webLogOn` timer per call with
the successive delays. -/
theorem failTimes_unset (s : State) (h : s._webauthTimeout = none) (k : Nat) :
    (failTimes (k + 1) s).state._webauthTimeout = some (min (1000 * 2 ^ k) 50000) ∧
    (failTimes (k + 1) s).effects =
      (List.range (k + 1)).map
        (fun i => Effect.setTimeout Timer._webLogOn (min (1000 * 2 ^ i) 50000)) := by
  induction k with
  | zero => simp [failTimes, fail, h, List.range_succ]
  | succ k ih =>
    obtain ⟨ih1, ih2⟩ := ih
    have hne : min (1000 * 2 ^ k) 50000 ≠ 0 := by
      have : 0 < 2 ^ k := Nat.two_pow_pos k
      omega
    have hstep : min (min (1000 * 2 ^ k) 50000 * 2) 50000 = min (1000 * 2 ^ (k + 1)) 50000 := by
      rw [pow_succ]
      omega
    constructor
    · show (fail (failTimes (k + 1) s).state).state._webauthTimeout = _
      simp [fail, ih1, hne, hstep]
    · show (failTimes (k + 1) s).effects ++ (fail (failTimes (k + 1) s).state).effects = _
      rw [ih2, List.range_succ (k + 1), List.map_append]
      simp [fail, ih1, hne, hstep]

/-- A reply with status 200 whose body parses to a document holding
`authenticateuser` deletes the retry state. -/
theorem success_clears_retry (parse : String → Option Vdf) (s : State) (rand : List Byte)
    (body : String) (doc au : Vdf) (hp : parse body = some doc)
    (hau : doc.get "authenticateuser" = some au) :
    (handleReply parse s rand (Reply.response 200 body)).state._webauthTimeout = none := by
  simp only [handleReply, onResponse, onEnd, hp, hau]
  cases jsToString (au.get "token") <;> cases jsToString (au.get "tokensecure") <;> rfl

/-- C1. Starting from an absent retry state, or from the state left by a
successful handshake, the k-th consecutive call of `fail` (k >= 1) sets the
backoff delay to min(1000 * 2^(k-1), 50000) ms and arms the retry timer with
it; the whole run arms the timers 1000, 2000, 4000, ... in that order. -/
theorem backoff_sequence (k : Nat) (hk : 1 ≤ k) :
    (∀ s : State, s._webauthTimeout = none →
      (failTimes k s).state._webauthTimeout = some (min (1000 * 2 ^ (k - 1)) 50000) ∧
      (failTimes k s).effects =
        (List.range k).map
          (fun i => Effect.setTimeout Timer._webLogOn (min (1000 * 2 ^ i) 50000))) ∧
    (∀ (parse : String → Option Vdf) (s : State) (rand : List Byte) (body : String)
        (doc au : Vdf), parse body = some doc → doc.get "authenticateuser" = some au →
      (failTimes k (handleReply parse s rand (Reply.response 200 body)).state).state._webauthTimeout
          = some (min (1000 * 2 ^ (k - 1)) 50000) ∧
      (failTimes k (handleReply parse s rand (Reply.response 200 body)).state).effects =
        (List.range k).map
          (fun i => Effect.setTimeout Timer._webLogOn (min (1000 * 2 ^ i) 50000))) := by
  obtain ⟨j, rfl⟩ : ∃ j, k = j + 1 := ⟨k - 1, by omega⟩
  refine ⟨fun s h => ?_, fun parse s rand body doc au hp hau => ?_⟩
  · simpa using failTimes_unset s h j
  · simpa using failTimes_unset _ (success_clears_retry parse s rand body doc au hp hau) j

/-- Witness for C1: the seventh failure in a row after a success is capped
at 50000 ms, and the seven timers are 1000, ..., 32000, 50000. -/
theorem backoff_sequence_witness :
    (failTimes 7 (handleReply sampleParse loggedOffState [] (Reply.response 200 "")).state
        ).state._webauthTimeout = some 50000 ∧
    (failTimes 7 (handleReply sampleParse loggedOffState [] (Reply.response 200 "")).state
        ).effects =
      [1000, 2000, 4000, 8000, 16000, 32000, 50000].map
        (fun d => Effect.setTimeout Timer._webLogOn d) :=
  (backoff_sequence 7 (by decide)).2 sampleParse loggedOffState [] "" _ _ rfl rfl

/-- C4. `webLogOn` throws and sends nothing exactly when `steamID` is unset
or its type is not INDIVIDUAL; exactly in the other states it sends one
`ClientRequestWebAPIAuthenticateUserNonce` message and throws nothing. It
never changes the state. -/
theorem webLogOn_fail_fast (s : State) :
    (((webLogOn s).thrown ≠ none ∧ (webLogOn s).effects = []) ↔
      (s.steamID = none ∨
        ∃ id, s.steamID = some id ∧ id.type ≠ SteamIDType.INDIVIDUAL)) ∧
    (((webLogOn s).thrown = none ∧
        (webLogOn s).effects = [Effect.send EMsg.ClientRequestWebAPIAuthenticateUserNonce]) ↔
      ¬ (s.steamID = none ∨
        ∃ id, s.steamID = some id ∧ id.type ≠ SteamIDType.INDIVIDUAL)) ∧
    (webLogOn s).state = s := by
  unfold webLogOn
  cases hid : s.steamID with
  | none => simp
  | some id =>
    by_cases ht : id.type = SteamIDType.INDIVIDUAL <;> simp [ht]

/-- C10. When `steamID` is unset or its type is not INDIVIDUAL, `_webLogOn`
returns without throwing, performs no effect (no message, no timer) and
leaves the state unchanged; in every other state it is `webLogOn`, which
then sends one nonce request and throws nothing. -/
theorem retry_trigger_silent (s : State) :
    ((s.steamID = none ∨ ∃ id, s.steamID = some id ∧ id.type ≠ SteamIDType.INDIVIDUAL) →
      _webLogOn s = ⟨s, [], none⟩) ∧
    (¬ (s.steamID = none ∨ ∃ id, s.steamID = some id ∧ id.type ≠ SteamIDType.INDIVIDUAL) →
      _webLogOn s = webLogOn s ∧
      _webLogOn s =
        ⟨s, [Effect.send EMsg.ClientRequestWebAPIAuthenticateUserNonce], none⟩) := by
  unfold _webLogOn webLogOn
  cases hid : s.steamID with
  | none => simp
  | some id =>
    by_cases ht : id.type = SteamIDType.INDIVIDUAL <;> simp [ht]

/-- Witness for C10: on a logged-off client `_webLogOn` does nothing, retry
state included. -/
theorem retry_trigger_silent_witness :
    _webLogOn loggedOffState = ⟨loggedOffState, [], none⟩ :=
  (retry_trigger_silent loggedOffState).1 (Or.inl rfl)

/-- C8. For a nonce response whose `eresult` is not OK, whatever the retry
state, the handler emits a debug line and arms exactly one timer, `_webLogOn`
after 500 ms; it arms no request timer (no authentication attempt), throws
nothing and leaves the state, `_webauthTimeout` included, unchanged. -/
theorem nonce_failure_retry (E : Key → Block → Block) (s : State) (eresult : Nat)
    (nonce : List Byte) (sessionKey : SessionKey) (iv : Block)
    (h : eresult ≠ EResult.OK) :
    handleNonceResponse E s eresult nonce sessionKey iv =
      ⟨s, [Effect.emitDebug ("Got response " ++ toString eresult ++
              " from ClientRequestWebAPIAuthenticateUserNonceResponse, retrying"),
           Effect.setTimeout Timer._webLogOn 500], none⟩ ∧
    (handleNonceResponse E s eresult nonce sessionKey iv).state._webauthTimeout
      = s._webauthTimeout ∧
    (∀ req ms, Effect.setTimeout (Timer.request req) ms ∉
      (handleNonceResponse E s eresult nonce sessionKey iv).effects) ∧
    (∀ cb ms, Effect.setTimeout cb ms ∈
      (handleNonceResponse E s eresult nonce sessionKey iv).effects →
        cb = Timer._webLogOn ∧ ms = 500) := by
  simp [handleNonceResponse, h]

/-- C9 (as amended). `_webAuthenticate` arms exactly one timer, for the
request, with delay `reqDelay = min(_webauthTimeout or 0, 10000)`: at most
10000 ms, zero when the retry state is unset, strictly positive when the
retry state holds a positive delay. -/
theorem settling_delay (E : Key → Block → Block) (s : State) (sessionKey : SessionKey)
    (iv : Block) (nonce : List Byte) (id : SteamID) (h : s.steamID = some id) :
    (∃ req, _webAuthenticate E s sessionKey iv nonce =
      ⟨s, [Effect.setTimeout (Timer.request req) (reqDelay s)], none⟩) ∧
    reqDelay s = min (s._webauthTimeout.getD 0) 10000 ∧
    reqDelay s ≤ 10000 ∧
    (s._webauthTimeout = none → reqDelay s = 0) ∧
    (∀ t, s._webauthTimeout = some t → 0 < t → 0 < reqDelay s) := by
  refine ⟨?_, ?_, ?_, ?_, ?_⟩
  · simp only [_webAuthenticate, h]
    exact ⟨_, rfl⟩
  · unfold reqDelay
    cases s._webauthTimeout with
    | none => simp
    | some t => by_cases ht : t = 0 <;> simp [ht]
  · unfold reqDelay
    exact Nat.min_le_right _ _
  · intro hn
    simp [reqDelay, hn]
  · intro t ht hpos
    have : t ≠ 0 := by omega
    simp [reqDelay, ht, this]
    omega

/-- Counterexample to C9 as stated: with the retry state unset (the very
first attempt) the settling delay is 0, not strictly positive. -/
theorem first_attempt_delay_is_zero :
    sampleState._webauthTimeout = none ∧ reqDelay sampleState = 0 ∧
      ¬ (0 < reqDelay sampleState) := by
  decide

/-- Two hexadecimal digits are equal only for equal values below 16. -/
theorem hexDigit_inj : ∀ a < 16, ∀ b < 16, hexDigit a = hexDigit b → a = b := by
  decide

/-- The digit of a value below 16 is one of `0`-`9`, `a`-`f`. -/
theorem hexDigit_mem : ∀ a < 16, hexDigit a ∈ "0123456789abcdef".toList := by
  decide

theorem toHex_cons (b : Byte) (bs : List Byte) :
    toHex (b :: bs) = hexDigit (b.val / 16) :: hexDigit (b.val % 16) :: toHex bs := by
  simp [toHex]

/-- The hexadecimal form has two characters per byte. -/
theorem toHex_length (bs : List Byte) : (toHex bs).length = 2 * bs.length := by
  induction bs with
  | nil => rfl
  | cons b bs ih =>
    rw [toHex_cons]
    simp only [List.length_cons, ih]
    omega

/-- Every character of the hexadecimal form is a lower-case hex digit. -/
theorem toHex_mem (bs : List Byte) : ∀ c ∈ toHex bs, c ∈ "0123456789abcdef".toList := by
  induction bs with
  | nil =>
    intro c hc
    simp [toHex] at hc
  | cons b bs ih =>
    intro c hc
    rw [toHex_cons] at hc
    simp only [List.mem_cons] at hc
    rcases hc with rfl | rfl | hc
    · exact hexDigit_mem _ (by omega)
    · exact hexDigit_mem _ (by omega)
    · exact ih c hc

/-- Different byte strings have different hexadecimal forms. -/
theorem toHex_injective : ∀ (a b : List Byte), toHex a = toHex b → a = b
  | [], [], _ => rfl
  | [], y :: b, h => by simp [toHex_cons, toHex] at h
  | x :: a, [], h => by simp [toHex_cons, toHex] at h
  | x :: a, y :: b, h => by
    rw [toHex_cons, toHex_cons] at h
    simp only [List.cons.injEq] at h
    obtain ⟨h1, h2, h3⟩ := h
    have e1 := hexDigit_inj _ (by omega) _ (by omega) h1
    have e2 := hexDigit_inj _ (by omega) _ (by omega) h2
    have hxy : x = y := by
      apply Fin.ext
      omega
    rw [hxy, toHex_injective a b h3]

/-- C3. A reply with status 200 whose body parses to a document with
`authenticateuser.token = t` and `authenticateuser.tokensecure = ts`, where
the concatenations `'steamLogin=' + t` and `'steamLoginSecure=' + ts` are
defined (they always are for strings, and then append the string itself),
makes the listeners emit exactly one `webSession` event, carrying the session
id and the cookies `'sessionid=' + sid`, `'steamLogin=' + t`,
`'steamLoginSecure=' + ts` in that order, arm no timer, throw nothing and
delete the retry state. The session id is freshly generated: it is the
lower-case hexadecimal form, two characters per byte, of the random bytes
drawn for this reply, and two draws give the same id only if they are the
same bytes. -/
theorem success_emits_session (parse : String → Option Vdf) (s : State) (rand : List Byte)
    (body : String) (doc au t ts : Vdf) (ct cts : String) (hp : parse body = some doc)
    (hau : doc.get "authenticateuser" = some au)
    (ht : au.get "token" = some t) (hts : au.get "tokensecure" = some ts)
    (hct : jsToString (some t) = some ct) (hcts : jsToString (some ts) = some cts) :
    handleReply parse s rand (Reply.response 200 body) =
      ⟨{ s with _webauthTimeout := none },
       [Effect.emitWebSession (String.mk (toHex rand))
          ["sessionid=" ++ String.mk (toHex rand),
           "steamLogin=" ++ ct,
           "steamLoginSecure=" ++ cts]],
       none⟩ ∧
    (∀ x, jsToString (some (Vdf.str x)) = some x) ∧
    (∀ x, t = Vdf.str x → ct = x) ∧
    (∀ x, ts = Vdf.str x → cts = x) ∧
    (String.mk (toHex rand)).length = 2 * rand.length ∧
    (∀ c ∈ (String.mk (toHex rand)).toList, c ∈ "0123456789abcdef".toList) ∧
    (∀ rand' : List Byte, String.mk (toHex rand') = String.mk (toHex rand) → rand' = rand) := by
  refine ⟨?_, fun x => rfl, fun x hx => ?_, fun x hx => ?_, ?_, ?_, fun rand' h => ?_⟩
  · simp [handleReply, onResponse, onEnd, hp, hau, ht, hts, hct, hcts]
  · rw [hx] at hct
    exact (Option.some.inj hct).symm
  · rw [hx] at hcts
    exact (Option.some.inj hcts).symm
  · simp [toHex_length]
  · exact toHex_mem rand
  · exact toHex_injective rand' rand (congrArg String.data h)

/-- The error path of the string concatenation: when `token` is an object
with an own `toString` key the `'end'` listener throws while building the
cookie list, after deleting the retry state, and emits nothing. -/
theorem unconvertible_token_throws (parse : String → Option Vdf) (s : State)
    (rand : List Byte) (body : String) (doc au t : Vdf) (hp : parse body = some doc)
    (hau : doc.get "authenticateuser" = some au) (ht : au.get "token" = some t)
    (hct : jsToString (some t) = none) :
    handleReply parse s rand (Reply.response 200 body) =
      ⟨{ s with _webauthTimeout := none }, [],
       some "TypeError: Cannot convert object to primitive value"⟩ := by
  simp [handleReply, onResponse, onEnd, hp, hau, ht, hct]

/-- No function or listener other than `fail` and the success path of the
`'end'` listener writes the retry state: `webLogOn`, `_webLogOn`, the nonce
handler and `_webAuthenticate` return the state they were given. -/
theorem retry_state_frame (E : Key → Block → Block) (s : State) (eresult : Nat)
    (nonce : List Byte) (sessionKey : SessionKey) (iv : Block) :
    (webLogOn s).state = s ∧ (_webLogOn s).state = s ∧
    (_webAuthenticate E s sessionKey iv nonce).state = s ∧
    (handleNonceResponse E s eresult nonce sessionKey iv).state = s := by
  have h1 : (webLogOn s).state = s := by
    unfold webLogOn
    split
    · rfl
    · split <;> rfl
  have h2 : (_webLogOn s).state = s := by
    unfold _webLogOn
    split
    · rfl
    · split
      · rfl
      · exact h1
  have h3 : (_webAuthenticate E s sessionKey iv nonce).state = s := by
    unfold _webAuthenticate
    split <;> rfl
  refine ⟨h1, h2, h3, ?_⟩
  unfold handleNonceResponse
  split
  · rfl
  · exact h3

/-- Replies that do reach `fail`: a status other than 200, an error on the
request, or a body on which the parser throws. Each performs exactly one
`fail` step (besides debug output) and emits no `webSession`. -/
theorem failure_backs_off (parse : String → Option Vdf) (s : State) (rand : List Byte) :
    (∀ status body, status ≠ 200 →
      handleReply parse s rand (Reply.response status body) =
        ⟨(fail s).state,
         Effect.emitDebug ("Error in AuthenticateUser: " ++ toString status) ::
           (fail s).effects ++ [Effect.emitDebugAuthenticateUser body], none⟩) ∧
    (∀ message,
      handleReply parse s rand (Reply.error message) =
        ⟨(fail s).state,
         Effect.emitDebug ("Error in AuthenticateUser: " ++ message) :: (fail s).effects,
         none⟩) ∧
    (∀ body, parse body = none →
      handleReply parse s rand (Reply.response 200 body) = fail s) := by
  refine ⟨fun status body h => ?_, fun message => ?_, fun body h => ?_⟩
  · simp [handleReply, onResponse, onEnd, h]
  · simp [handleReply, onRequestError]
  · simp [handleReply, onResponse, onEnd, h, fail]

/-- C2 (the code at a failing input). A reply with status 200 whose body
parses to a document without the `authenticateuser` key is not treated as a
failure: the retry state is deleted, a TypeError is thrown out of the
listener, and no effect at all is performed, so no `_webLogOn` timer is armed. -/
theorem missing_authenticateuser_no_backoff (parse : String → Option Vdf) (s : State)
    (rand : List Byte) (body : String) (doc : Vdf) (hp : parse body = some doc)
    (hau : doc.get "authenticateuser" = none) :
    handleReply parse s rand (Reply.response 200 body) =
      ⟨{ s with _webauthTimeout := none }, [],
       some "TypeError: Cannot read property 'token' of undefined"⟩ ∧
    (∀ cb ms, Effect.setTimeout cb ms ∉
      (handleReply parse s rand (Reply.response 200 body)).effects) := by
  simp [handleReply, onResponse, onEnd, hp, hau]

/-- The same missing validation one level down: when `authenticateuser` is
there but has no `token`, a `webSession` is emitted whose cookie reads
`steamLogin=undefined`. -/
theorem missing_token_emits_session (parse : String → Option Vdf) (s : State)
    (rand : List Byte) (body : String) (doc au : Vdf) (cts : String)
    (hp : parse body = some doc) (hau : doc.get "authenticateuser" = some au)
    (ht : au.get "token" = none) (hcts : jsToString (au.get "tokensecure") = some cts) :
    handleReply parse s rand (Reply.response 200 body) =
      ⟨{ s with _webauthTimeout := none },
       [Effect.emitWebSession (String.mk (toHex rand))
          ["sessionid=" ++ String.mk (toHex rand),
           "steamLogin=undefined",
           "steamLoginSecure=" ++ cts]],
       none⟩ := by
  have hu : jsToString none = some "undefined" := rfl
  simp [handleReply, onResponse, onEnd, hp, hau, ht, hcts, hu]

/-- Witness for C2: status 200 with an empty body, which the parser turns
into the empty document, after two earlier failures. -/
theorem missing_authenticateuser_no_backoff_witness :
    handleReply emptyParse { sampleState with _webauthTimeout := some 2000 } []
        (Reply.response 200 "") =
      ⟨sampleState, [], some "TypeError: Cannot read property 'token' of undefined"⟩ ∧
    (∀ cb ms, Effect.setTimeout cb ms ∉
      (handleReply emptyParse { sampleState with _webauthTimeout := some 2000 } []
        (Reply.response 200 "")).effects) :=
  missing_authenticateuser_no_backoff emptyParse _ [] "" (Vdf.obj []) rfl rfl

/-! ## Theorems: nonce encryption -/

theorem byte_xor_cancel_left (a b : Byte) : (a ^^^ b) ^^^ a = b := by
  apply Fin.ext
  have h1 : a.val ^^^ b.val < 256 := @Nat.xor_lt_two_pow a.val b.val 8 a.isLt b.isLt
  show ((a.val ^^^ b.val) % 256 ^^^ a.val) % 256 = b.val
  rw [Nat.mod_eq_of_lt h1, Nat.xor_comm (a.val) b.val, Nat.xor_assoc, Nat.xor_self, Nat.xor_zero]
  exact Nat.mod_eq_of_lt b.isLt

theorem byte_xor_cancel_right (a b : Byte) : (a ^^^ b) ^^^ b = a := by
  apply Fin.ext
  have h1 : a.val ^^^ b.val < 256 := @Nat.xor_lt_two_pow a.val b.val 8 a.isLt b.isLt
  show ((a.val ^^^ b.val) % 256 ^^^ b.val) % 256 = a.val
  rw [Nat.mod_eq_of_lt h1, Nat.xor_assoc, Nat.xor_self, Nat.xor_zero]
  exact Nat.mod_eq_of_lt a.isLt

theorem zipWith_xor_cancel_left :
    ∀ (p x : List Byte), p.length = x.length →
      List.zipWith (· ^^^ ·) (List.zipWith (· ^^^ ·) p x) p = x
  | [], [], _ => rfl
  | [], _ :: _, h => by simp at h
  | _ :: _, [], h => by simp at h
  | a :: p, b :: x, h => by
    have h' : p.length = x.length := by simpa using h
    simp [byte_xor_cancel_left, zipWith_xor_cancel_left p x h']

theorem zipWith_xor_cancel_right :
    ∀ (p x : List Byte), p.length = x.length →
      List.zipWith (· ^^^ ·) (List.zipWith (· ^^^ ·) p x) x = p
  | [], [], _ => rfl
  | [], _ :: _, h => by simp at h
  | _ :: _, [], h => by simp at h
  | a :: p, b :: x, h => by
    have h' : p.length = x.length := by simpa using h
    simp [byte_xor_cancel_right, zipWith_xor_cancel_right p x h']

theorem blockXor_cancel_left (p x : Block) : blockXor (blockXor p x) p = x :=
  Subtype.ext (zipWith_xor_cancel_left p.val x.val (p.property.trans x.property.symm))

theorem blockXor_cancel_right (p x : Block) : blockXor (blockXor p x) x = p :=
  Subtype.ext (zipWith_xor_cancel_right p.val x.val (p.property.trans x.property.symm))

/-- The stand-in cipher is a permutation of blocks with itself as inverse. -/
theorem xorCipher_inverse (key : Key) (b : Block) : xorCipher key (xorCipher key b) = b :=
  blockXor_cancel_right b (mkBlock key.val)

theorem mkBlock_val_of_le (l : List Byte) (h : 16 ≤ l.length) : (mkBlock l).val = l.take 16 := by
  simp [mkBlock, List.take_append_of_le_length h]

theorem mkBlock_take_append (b : Block) (rest : List Byte) :
    mkBlock ((b.val ++ rest).take 16) = b := by
  apply Subtype.ext
  rw [List.take_left' b.property]
  simp [mkBlock, List.take_left' b.property]

theorem pkcs7Final_val (rest : List Byte) (h : rest.length < 16) :
    (pkcs7Final rest).val =
      rest ++ List.replicate (16 - rest.length) (Fin.ofNat (16 - rest.length)) := by
  unfold pkcs7Final
  rw [mkBlock_val_of_le _ (by simp; omega)]
  apply List.take_of_length_le
  simp
  omega

theorem cbcGo_length (E : Key → Block → Block) (key : Key) :
    ∀ (n : Nat) (prev : Block) (data : List Byte),
      (cbcGo E key n prev data).length = 16 * (n + 1)
  | 0, prev, data => by simp [cbcGo, (E key _).property]
  | n + 1, prev, data => by
    simp only [cbcGo, List.length_append, cbcGo_length E key n, (E key _).property]
    omega

/-- Length of the value built by `_webAuthenticate`: the wrapped IV block plus
one more block than the nonce has full blocks. -/
theorem encNonce_size_formula (E : Key → Block → Block) (key : Key) (iv : Block)
    (nonce : List Byte) :
    (encryptedNonce E key iv nonce).length = 16 + 16 * (nonce.length / 16 + 1) := by
  simp [encryptedNonce, aes256ecbNoPadding, aes256cbc, cbcGo_length, (E key iv).property]

theorem cbc_roundtrip_raw (E D : Key → Block → Block) (h : ∀ k b, D k (E k b) = b) (key : Key) :
    ∀ (n : Nat) (prev : Block) (data : List Byte), data.length / 16 = n →
      cbcDecGo D key (n + 1) prev (cbcGo E key n prev data) =
        data ++ List.replicate (16 - data.length % 16) (Fin.ofNat (16 - data.length % 16))
  | 0, prev, data, hn => by
    have hlt : data.length < 16 := by omega
    have hb := mkBlock_take_append (E key (blockXor prev (pkcs7Final data))) []
    simp only [List.append_nil] at hb
    simp only [cbcGo, cbcDecGo, hb, h, blockXor_cancel_left, List.append_nil]
    rw [pkcs7Final_val data hlt, Nat.mod_eq_of_lt hlt]
  | n + 1, prev, data, hn => by
    have hle : 16 ≤ data.length := by omega
    have hdrop : (data.drop 16).length / 16 = n := by
      simp only [List.length_drop]
      omega
    have hmod : (data.drop 16).length % 16 = data.length % 16 := by
      simp only [List.length_drop]
      omega
    have ih := cbc_roundtrip_raw E D h key n
      (E key (blockXor prev (mkBlock (data.take 16)))) (data.drop 16) hdrop
    have hval : (mkBlock (data.take 16)).val = data.take 16 := by
      rw [mkBlock_val_of_le _ (by simp; omega)]
      apply List.take_of_length_le
      simp
    rw [cbcGo, cbcDecGo]
    simp only [mkBlock_take_append, h, blockXor_cancel_left, hval]
    rw [List.drop_left' (E key (blockXor prev (mkBlock (data.take 16)))).property, ih, hmod,
      ← List.append_assoc, List.take_append_drop]

theorem pkcs7Unpad_pad (data : List Byte) (p : Nat) (h1 : 1 ≤ p) (h16 : p ≤ 16) :
    pkcs7Unpad (data ++ List.replicate p (Fin.ofNat p)) = some data := by
  have hv : (Fin.ofNat p : Byte).val = p := by
    show p % 256 = p
    omega
  have hlast : (data ++ List.replicate p (Fin.ofNat p : Byte)).getLast? = some (Fin.ofNat p) := by
    rw [List.getLast?_append, List.getLast?_replicate]
    have : p ≠ 0 := by omega
    simp [this]
  unfold pkcs7Unpad
  rw [hlast]
  simp only [hv, List.length_append, List.length_replicate, Nat.add_sub_cancel]
  rw [List.drop_left, List.take_left]
  simp [h1, h16]

/-- C5 (as amended). The value built by `_webAuthenticate` is 16 bytes of
wrapped IV plus 16 * (floor(len(N) / 16) + 1) bytes of padded ciphertext:
16 + ceil_to_block(len(N)) when len(N) is not a multiple of 16, and one full
block more than that when it is. -/
theorem encryptedNonce_length (E : Key → Block → Block) (key : Key) (iv : Block)
    (nonce : List Byte) :
    (encryptedNonce E key iv nonce).length = 16 + 16 * (nonce.length / 16 + 1) ∧
    (nonce.length % 16 ≠ 0 →
      (encryptedNonce E key iv nonce).length = 16 + ceilToBlock nonce.length) ∧
    (nonce.length % 16 = 0 →
      (encryptedNonce E key iv nonce).length = 16 + ceilToBlock nonce.length + 16) := by
  rw [encNonce_size_formula]
  unfold ceilToBlock
  refine ⟨rfl, fun h => ?_, fun h => ?_⟩ <;> omega

/-- Witness for C5 (as amended): a 19-byte nonce gives 16 + 32 bytes. -/
theorem encryptedNonce_length_witness :
    (encryptedNonce xorCipher sampleKey sampleIv (List.replicate 19 65)).length
      = 16 + ceilToBlock (List.replicate 19 (65 : Byte)).length :=
  (encryptedNonce_length xorCipher sampleKey sampleIv (List.replicate 19 65)).2.1 (by decide)

/-- Counterexample to C5 as stated: for a 16-byte nonce the result has 48
bytes, while 16 + ceil_to_block(16) is 32. -/
theorem full_block_nonce_size :
    (encryptedNonce xorCipher sampleKey sampleIv (List.replicate 16 65)).length = 48 ∧
    16 + ceilToBlock (List.replicate 16 (65 : Byte)).length = 32 := by
  constructor
  · rw [encNonce_size_formula]
    rfl
  · decide

/-- C6. For every nonce, 32-byte key and 16-byte IV, and any block primitive
`E` with inverse `D`: unwrapping the first 16 bytes of `encryptedNonce` with
the key gives back the IV, and decrypting the remaining bytes under the key
and that IV, with padding removal, gives back exactly the nonce. -/
theorem nonce_roundtrip (E D : Key → Block → Block) (h : ∀ k b, D k (E k b) = b)
    (key : Key) (iv : Block) (nonce : List Byte) :
    specUnwrapIv D key (encryptedNonce E key iv nonce) = iv ∧
    specDecryptNonce D key (specUnwrapIv D key (encryptedNonce E key iv nonce))
      ((encryptedNonce E key iv nonce).drop 16) = some nonce := by
  have hu : specUnwrapIv D key (encryptedNonce E key iv nonce) = iv := by
    simp only [specUnwrapIv, encryptedNonce, aes256ecbNoPadding, mkBlock_take_append, h]
  have hd : (encryptedNonce E key iv nonce).drop 16 = aes256cbc E key iv nonce := by
    simp only [encryptedNonce, aes256ecbNoPadding]
    exact List.drop_left' (E key iv).property
  refine ⟨hu, ?_⟩
  rw [hu, hd]
  have hl : (aes256cbc E key iv nonce).length = 16 * (nonce.length / 16 + 1) :=
    cbcGo_length E key _ iv nonce
  have hc : ¬ ((aes256cbc E key iv nonce).length % 16 ≠ 0 ∨
      (aes256cbc E key iv nonce).length = 0) := by
    rw [hl]
    omega
  have hq : (aes256cbc E key iv nonce).length / 16 = nonce.length / 16 + 1 := by
    rw [hl]
    omega
  unfold specDecryptNonce
  rw [if_neg hc, hq]
  unfold aes256cbc
  rw [cbc_roundtrip_raw E D h key _ iv nonce rfl]
  exact pkcs7Unpad_pad nonce _ (by omega) (by omega)

/-- Witness for C6: the round trip of a three-byte nonce through the
stand-in cipher. -/
theorem nonce_roundtrip_witness :
    specUnwrapIv xorCipher sampleKey (encryptedNonce xorCipher sampleKey sampleIv [1, 2, 3])
      = sampleIv ∧
    specDecryptNonce xorCipher sampleKey
      (specUnwrapIv xorCipher sampleKey (encryptedNonce xorCipher sampleKey sampleIv [1, 2, 3]))
      ((encryptedNonce xorCipher sampleKey sampleIv [1, 2, 3]).drop 16) = some [1, 2, 3] :=
  nonce_roundtrip xorCipher xorCipher xorCipher_inverse sampleKey sampleIv [1, 2, 3]

/-- Witness for C8: `eresult` 2 (Fail) with a retry state of 4000 ms. -/
theorem nonce_failure_retry_witness :
    (handleNonceResponse xorCipher loggedOffState 2 [1, 2, 3] sampleSessionKey sampleIv).effects
      = [Effect.emitDebug
          "Got response 2 from ClientRequestWebAPIAuthenticateUserNonceResponse, retrying",
         Effect.setTimeout Timer._webLogOn 500] ∧
    (handleNonceResponse xorCipher loggedOffState 2 [1, 2, 3] sampleSessionKey sampleIv
      ).state._webauthTimeout = some 4000 := by
  have h := nonce_failure_retry xorCipher loggedOffState 2 [1, 2, 3] sampleSessionKey sampleIv
    (by decide)
  exact ⟨by rw [h.1]; rfl, h.2.1⟩

/-- Witness for C9 (as amended): after two failures (retry state 2000 ms) the
settling delay is positive. -/
theorem settling_delay_witness :
    0 < reqDelay { sampleState with _webauthTimeout := some 2000 } :=
  (settling_delay xorCipher { sampleState with _webauthTimeout := some 2000 } sampleSessionKey
    sampleIv [1, 2, 3] ⟨1, "76561197960265729"⟩ rfl).2.2.2.2 2000 rfl (by decide)

/-- Witness for C3: a well-formed reply on a client with retry state 4000,
with twelve random bytes. -/
theorem success_emits_session_witness :
    handleReply sampleParse loggedOffState
        [0, 255, 18, 171, 205, 239, 1, 35, 69, 103, 137, 154] (Reply.response 200 "") =
      ⟨{ loggedOffState with _webauthTimeout := none },
       [Effect.emitWebSession "00ff12abcdef01234567899a"
          ["sessionid=00ff12abcdef01234567899a", "steamLogin=AAAA", "steamLoginSecure=BBBB"]],
       none⟩ :=
  (success_emits_session sampleParse loggedOffState
    [0, 255, 18, 171, 205, 239, 1, 35, 69, 103, 137, 154] "" _ _
    (Vdf.str "AAAA") (Vdf.str "BBBB") "AAAA" "BBBB" rfl rfl rfl rfl rfl rfl).1

/-! ## Theorems: the proxy agent -/

theorem proxyStep_budget (host : String) (c : Conn) (e : ProxyEvent) :
    callbackCount (proxyStep host c e).2 + callbackBudget (proxyStep host c e).1
      ≤ callbackBudget c := by
  rcases c with ⟨f, t⟩
  cases e with
  | connect statusCode statusMessage =>
    by_cases hs : statusCode = 200 <;> cases f <;> cases t <;>
      simp [proxyStep, callbackBudget, callbackCount, ProxyEffect.isCallback, hs]
  | timeout =>
    cases f <;> cases t <;>
      simp [proxyStep, callbackBudget, callbackCount, ProxyEffect.isCallback]
  | error err =>
    cases f <;> cases t <;>
      simp [proxyStep, callbackBudget, callbackCount, ProxyEffect.isCallback]
  | secureConnect authorized authorizationError =>
    cases f <;> cases t <;> cases authorized <;>
      simp [proxyStep, callbackBudget, callbackCount, ProxyEffect.isCallback]

theorem proxyRun_budget (host : String) :
    ∀ (evs : List ProxyEvent) (c : Conn),
      callbackCount (proxyRun host c evs).2 + callbackBudget (proxyRun host c evs).1
        ≤ callbackBudget c
  | [], c => by simp [proxyRun, callbackCount]
  | e :: es, c => by
    have h1 := proxyStep_budget host c e
    have h2 := proxyRun_budget host es (proxyStep host c e).1
    simp only [proxyRun, callbackCount, List.countP_append] at *
    omega

theorem proxyRun_append (host : String) :
    ∀ (a b : List ProxyEvent) (c : Conn),
      proxyRun host c (a ++ b) =
        ((proxyRun host (proxyRun host c a).1 b).1,
         (proxyRun host c a).2 ++ (proxyRun host (proxyRun host c a).1 b).2)
  | [], b, c => by simp [proxyRun]
  | e :: es, b, c => by
    simp [proxyRun, proxyRun_append host es b]

/-- While `finished` is false no TLS socket exists and nothing was reported. -/
theorem proxyRun_unfinished (host : String) :
    ∀ (evs : List ProxyEvent) (c : Conn), (c.finished = false → c.tls = TlsPhase.idle) →
      (proxyRun host c evs).1.finished = false →
        (proxyRun host c evs).1.tls = TlsPhase.idle ∧ c.finished = false ∧
        callbackCount (proxyRun host c evs).2 = 0 ∧ tlsCount (proxyRun host c evs).2 = 0
  | [], c, hc, hf => by
    simp only [proxyRun] at hf
    simp [proxyRun, callbackCount, tlsCount, hc hf, hf]
  | e :: es, c, hc, hf => by
    have hinv : (proxyStep host c e).1.finished = false →
        (proxyStep host c e).1.tls = TlsPhase.idle := by
      rcases c with ⟨f, t⟩
      cases e with
      | connect statusCode statusMessage =>
        by_cases hs : statusCode = 200 <;> cases f <;> simp_all [proxyStep]
      | timeout => cases f <;> simp_all [proxyStep]
      | error err => cases f <;> simp_all [proxyStep]
      | secureConnect authorized authorizationError =>
        cases f <;> cases t <;> cases authorized <;> simp_all [proxyStep]
    have ih := proxyRun_unfinished host es (proxyStep host c e).1 hinv hf
    obtain ⟨ih1, ih2, ih3, ih4⟩ := ih
    have hstep : c.finished = false ∧ (proxyStep host c e).2 = [] := by
      rcases c with ⟨f, t⟩
      cases e with
      | connect statusCode statusMessage =>
        by_cases hs : statusCode = 200 <;> cases f <;> simp_all [proxyStep]
      | timeout => cases f <;> simp_all [proxyStep]
      | error err => cases f <;> simp_all [proxyStep]
      | secureConnect authorized authorizationError =>
        cases f <;> cases t <;> cases authorized <;> simp_all [proxyStep]
    refine ⟨ih1, hstep.1, ?_, ?_⟩
    · simp only [proxyRun, callbackCount, List.countP_append, hstep.2] at *
      simpa using ih3
    · simp only [proxyRun, tlsCount, List.countP_append, hstep.2] at *
      simpa using ih4

/-- Once `finished` is true and no TLS listener waits, no event invokes the
callback or starts a TLS handshake any more. -/
theorem proxyRun_resolved (host : String) :
    ∀ (evs : List ProxyEvent) (c : Conn), c.finished = true → c.tls ≠ TlsPhase.handshaking →
      callbackCount (proxyRun host c evs).2 = 0 ∧ tlsCount (proxyRun host c evs).2 = 0
  | [], c, _, _ => by simp [proxyRun, callbackCount, tlsCount]
  | e :: es, c, hf, ht => by
    have hstep : (proxyStep host c e).1 = c ∧ callbackCount (proxyStep host c e).2 = 0 ∧
        tlsCount (proxyStep host c e).2 = 0 := by
      rcases c with ⟨f, t⟩
      cases e <;> cases t <;>
        simp_all [proxyStep, callbackCount, tlsCount, ProxyEffect.isCallback,
          ProxyEffect.isTlsConnect]
    have ih := proxyRun_resolved host es c hf ht
    simp only [proxyRun, callbackCount, tlsCount, List.countP_append, hstep.1] at *
    omega

/-- C7. For every sequence of events delivered to one connection attempt, the
result callback is invoked at most once. If the attempt was still unresolved
and a timeout or an error arrives, that event invokes the callback once, and
after it no event whatever (proxy responses included) invokes the callback or
starts a TLS handshake: the whole run has exactly one callback and no TLS
handshake. -/
theorem proxy_latch (host : String) :
    (∀ evs : List ProxyEvent, callbackCount (proxyRun host Conn.init evs).2 ≤ 1) ∧
    (∀ (pre post : List ProxyEvent) (e : ProxyEvent),
      (e = ProxyEvent.timeout ∨ ∃ err, e = ProxyEvent.error err) →
      (proxyRun host Conn.init pre).1.finished = false →
        callbackCount (proxyStep host (proxyRun host Conn.init pre).1 e).2 = 1 ∧
        callbackCount
          (proxyRun host (proxyStep host (proxyRun host Conn.init pre).1 e).1 post).2 = 0 ∧
        tlsCount
          (proxyRun host (proxyStep host (proxyRun host Conn.init pre).1 e).1 post).2 = 0 ∧
        callbackCount (proxyRun host Conn.init (pre ++ e :: post)).2 = 1 ∧
        tlsCount (proxyRun host Conn.init (pre ++ e :: post)).2 = 0) := by
  constructor
  · intro evs
    have h := proxyRun_budget host evs Conn.init
    have hb : callbackBudget Conn.init = 1 := by decide
    omega
  · intro pre post e he hf
    obtain ⟨htls, _, hcb0, htls0⟩ :=
      proxyRun_unfinished host pre Conn.init (fun _ => rfl) hf
    have hstep : (proxyStep host (proxyRun host Conn.init pre).1 e).1.finished = true ∧
        (proxyStep host (proxyRun host Conn.init pre).1 e).1.tls = TlsPhase.idle ∧
        callbackCount (proxyStep host (proxyRun host Conn.init pre).1 e).2 = 1 ∧
        tlsCount (proxyStep host (proxyRun host Conn.init pre).1 e).2 = 0 := by
      rcases he with rfl | ⟨err, rfl⟩ <;>
        simp [proxyStep, hf, htls, callbackCount, tlsCount, ProxyEffect.isCallback,
          ProxyEffect.isTlsConnect]
    obtain ⟨h1, h2, h3, h4⟩ := hstep
    have hpost := proxyRun_resolved host post
      (proxyStep host (proxyRun host Conn.init pre).1 e).1 h1 (by rw [h2]; decide)
    refine ⟨h3, hpost.1, hpost.2, ?_, ?_⟩
    · rw [proxyRun_append]
      simp only [proxyRun, callbackCount, List.countP_append] at *
      omega
    · rw [proxyRun_append]
      simp only [proxyRun, tlsCount, List.countP_append] at *
      omega

/-- Witness for C7: the proxy answers 200 after the timeout has fired; the
late answer only closes the socket. -/
theorem proxy_latch_witness :
    callbackCount (proxyRun "api.steampowered.com" Conn.init
      ([] ++ ProxyEvent.timeout ::
        [ProxyEvent.connect 200 "Connection established",
         ProxyEvent.secureConnect true none, ProxyEvent.timeout])).2 = 1 ∧
    tlsCount (proxyRun "api.steampowered.com" Conn.init
      ([] ++ ProxyEvent.timeout ::
        [ProxyEvent.connect 200 "Connection established",
         ProxyEvent.secureConnect true none, ProxyEvent.timeout])).2 = 0 :=
  ((proxy_latch "api.steampowered.com").2 []
    [ProxyEvent.connect 200 "Connection established",
     ProxyEvent.secureConnect true none, ProxyEvent.timeout]
    ProxyEvent.timeout (Or.inl rfl) rfl).2.2.2

end SteamUser
